import Mathlib

/-!
Verification of the cognition backend core: a shallow embedding of the
interaction ledger, fact metrics updater, resilient batch data-access layer
and ranking/trending scoring routines, together with theorems settling the
spec's testable properties against the embedded code.

Numbers of the JavaScript source are modelled as exact rationals (`ℚ`),
except the trending score, whose `Math.exp` is modelled over `ℝ`.
Timestamps are epoch milliseconds (`ℕ`); the remote store is modelled as
explicit state threaded through each handler.
-/

namespace Cognition

/-- Interaction types, from the validator `isIn(['like','dislike','share','read','view'])`
in `routes/interactions.js`. -/
inductive IType where
  | like
  | dislike
  | share
  | read
  | view
deriving DecidableEq

/-- A fact record's engagement counters and derived popularity, from the
facts table items of the source (`likes`, `dislikes`, `shares`, `reads`,
`views`, `popularity`). Counters are rationals because the DynamoDB `ADD`
update used by the source is plain numeric addition. -/
structure Fact where
  likes : ℚ
  dislikes : ℚ
  shares : ℚ
  reads : ℚ
  views : ℚ
  popularity : ℚ
deriving DecidableEq

/-- The zero-initialised fact record that a DynamoDB `ADD` update creates
when the keyed item is absent. -/
def Fact.empty : Fact := ⟨0, 0, 0, 0, 0, 0⟩

/-- The counter field selected by `metricMap` in `updateFactMetrics`
(`routes/interactions.js` lines 367-375). -/
def counterOf (f : Fact) : IType → ℚ
  | .like => f.likes
  | .dislike => f.dislikes
  | .share => f.shares
  | .read => f.reads
  | .view => f.views

/-- The DynamoDB `ADD <metricField> :delta` update issued by
`updateFactMetrics` (`routes/interactions.js` line 381). -/
def bumpCounter (f : Fact) (t : IType) (δ : ℚ) : Fact :=
  match t with
  | .like => { f with likes := f.likes + δ }
  | .dislike => { f with dislikes := f.dislikes + δ }
  | .share => { f with shares := f.shares + δ }
  | .read => { f with reads := f.reads + δ }
  | .view => { f with views := f.views + δ }

/-- `rawScore` of `updatePopularityScore` (`routes/interactions.js` line 415):
`(likes * 3) + (shares * 5) + (reads * 1) + (views * 0.5) - (dislikes * 2)`. -/
def rawScore (f : Fact) : ℚ :=
  (f.likes * 3) + (f.shares * 5) + (f.reads * 1) + (f.views * (1/2)) - (f.dislikes * 2)

/-- `Math.min(100, Math.max(0, rawScore))` (`routes/interactions.js` line 416). -/
def popClamp (x : ℚ) : ℚ := min 100 (max 0 x)

/-- `updatePopularityScore` (`routes/interactions.js` lines 397-431): re-read
the fact's counters and overwrite `popularity` with the clamped raw score. -/
def updatePopularityScore (f : Fact) : Fact :=
  { f with popularity := popClamp (rawScore f) }

/-- `updateFactMetrics` (`routes/interactions.js` lines 365-394) restricted to
a single fact record: apply the `ADD` counter delta, then recompute the
popularity score. -/
def updateFactMetrics (t : IType) (δ : ℚ) (f : Fact) : Fact :=
  updatePopularityScore (bumpCounter f t δ)

/-- C1: after any metrics update (any interaction type, any delta — so both
recording, `δ = 1`, and removing, `δ = -1`), the resulting fact's popularity
equals `clamp(0,100, 3·likes + 5·shares + 1·reads + 0.5·views - 2·dislikes)`
of the resulting fact's own counters: popularity is a pure function of the
counters after every update. -/
theorem popularity_clamped_after_update (f : Fact) (t : IType) (δ : ℚ) :
    (updateFactMetrics t δ f).popularity =
      min 100 (max 0
        (3 * (updateFactMetrics t δ f).likes
          + 5 * (updateFactMetrics t δ f).shares
          + 1 * (updateFactMetrics t δ f).reads
          + (1/2) * (updateFactMetrics t δ f).views
          - 2 * (updateFactMetrics t δ f).dislikes)) := by
  cases t <;>
    simp only [updateFactMetrics, updatePopularityScore, bumpCounter, popClamp, rawScore] <;>
    ring_nf

/-- An interaction ledger entry, from the item put by `router.post('/')`
(`routes/interactions.js` lines 40-47). The table's primary key is
`(userId, timestamp)`; `factId` and the interaction type are attributes.
Timestamps are epoch milliseconds. -/
structure Interaction where
  userId : String
  factId : String
  itype : IType
  timestamp : ℕ
deriving DecidableEq

/-- The store state visible to the interaction routes: the interactions
table and the facts table (keyed by fact id). -/
structure St where
  interactions : List Interaction
  facts : String → Option Fact

/-- `AppError` of the error handler middleware: message and HTTP status. -/
structure AppErr where
  msg : String
  status : ℕ
deriving DecidableEq

/-- The ledger query used by both the delete route and
`removeOppositeInteraction`: key condition `userId = :userId` with filter
`factId = :factId AND #type = :type`. -/
def queryUserFactType (l : List Interaction) (u f : String) (t : IType) : List Interaction :=
  l.filter fun i => decide (i.userId = u ∧ i.factId = f ∧ i.itype = t)

/-- A DynamoDB delete on the interactions table by primary key
`(userId, timestamp)`. -/
def eraseByKey (l : List Interaction) (u : String) (ts : ℕ) : List Interaction :=
  l.filter fun i => !decide (i.userId = u ∧ i.timestamp = ts)

/-- A DynamoDB put on the interactions table: replaces any item with the
same `(userId, timestamp)` key. -/
def putInteraction (l : List Interaction) (i : Interaction) : List Interaction :=
  i :: eraseByKey l i.userId i.timestamp

/-- `updateFactMetrics` (`routes/interactions.js` lines 365-394) as a state
transformer: the `ADD` update creates a zeroed item when the fact is absent,
then `updatePopularityScore` re-reads and overwrites `popularity`. -/
def updateFactMetricsSt (st : St) (factId : String) (t : IType) (δ : ℚ) : St :=
  let f := (st.facts factId).getD Fact.empty
  let f' := updateFactMetrics t δ f
  { st with facts := fun id => if id = factId then some f' else st.facts id }

/-- The opposite type computed at `routes/interactions.js` line 325. -/
def oppositeOf (t : IType) : IType := if t = IType.like then IType.dislike else IType.like

/-- `removeOppositeInteraction` (`routes/interactions.js` lines 324-362):
query the user's entries for this fact of the opposite type, then delete
each by key and decrement the opposite metric (which recomputes
popularity). -/
def removeOppositeInteraction (st : St) (u f : String) (t : IType) : St :=
  let opp := oppositeOf t
  let items := queryUserFactType st.interactions u f opp
  items.foldl
    (fun s i =>
      let s' := { s with interactions := eraseByKey s.interactions i.userId i.timestamp }
      updateFactMetricsSt s' f opp (-1))
    st

/-- `router.post('/')` (`routes/interactions.js` lines 10-64): check the
fact exists (404 otherwise), remove any opposite like/dislike, put the new
ledger entry, and increment the fact's metric. Returns the final store
state together with the response or error. -/
def recordInteraction (st : St) (u f : String) (t : IType) (ts : ℕ) :
    St × Except AppErr Interaction :=
  match st.facts f with
  | none => (st, .error ⟨"Fact not found", 404⟩)
  | some _ =>
    let st1 := if t = IType.like ∨ t = IType.dislike then removeOppositeInteraction st u f t else st
    let i : Interaction := ⟨u, f, t, ts⟩
    let st2 := { st1 with interactions := putInteraction st1.interactions i }
    let st3 := updateFactMetricsSt st2 f t 1
    (st3, .ok i)

/-- `router.delete('/:userId/:factId/:type')` (`routes/interactions.js`
lines 67-120): query matching entries; 404 when none; otherwise delete the
most recent by timestamp and decrement the metric. -/
def removeInteractionOp (st : St) (u f : String) (t : IType) :
    St × Except AppErr Unit :=
  match queryUserFactType st.interactions u f t with
  | [] => (st, .error ⟨"Interaction not found", 404⟩)
  | x :: xs =>
    let latest := (x :: xs).foldl (fun a b => if a.timestamp < b.timestamp then b else a) x
    let st1 := { st with interactions := eraseByKey st.interactions latest.userId latest.timestamp }
    let st2 := updateFactMetricsSt st1 f t (-1)
    (st2, .ok ())

/-- If a query for (user, fact, type) returns exactly `[e]`, then after
erasing `e`'s ledger key (and any further key), no matching entry remains. -/
theorem query_erase_self (l : List Interaction) (u f : String) (t' : IType) (e : Interaction)
    (hone : queryUserFactType l u f t' = [e]) (u' : String) (ts' : ℕ) :
    queryUserFactType (eraseByKey (eraseByKey l e.userId e.timestamp) u' ts') u f t' = [] := by
  rw [queryUserFactType, List.filter_eq_nil_iff]
  intro a ha hpa
  have ha1 : a ∈ eraseByKey l e.userId e.timestamp := List.mem_of_mem_filter ha
  have hkey := List.of_mem_filter ha1
  have ha2 : a ∈ l := List.mem_of_mem_filter ha1
  have hmem : a ∈ queryUserFactType l u f t' := List.mem_filter.mpr ⟨ha2, hpa⟩
  rw [hone] at hmem
  have hae : a = e := List.mem_singleton.mp hmem
  subst hae
  simp at hkey

/-- `queryUserFactType` over a cons cell. -/
theorem queryUserFactType_cons (i : Interaction) (l : List Interaction) (u f : String)
    (t' : IType) :
    queryUserFactType (i :: l) u f t' =
      if i.userId = u ∧ i.factId = f ∧ i.itype = t'
      then i :: queryUserFactType l u f t'
      else queryUserFactType l u f t' := by
  simp [queryUserFactType, List.filter_cons]

/-- The metric field of a fact after `updateFactMetrics`: only the updated
type's counter changes, by exactly the delta. -/
theorem counterOf_updateFactMetrics (f : Fact) (t t' : IType) (δ : ℚ) :
    counterOf (updateFactMetrics t δ f) t' =
      if t' = t then counterOf f t' + δ else counterOf f t' := by
  cases t <;> cases t' <;>
    simp [updateFactMetrics, updatePopularityScore, bumpCounter, counterOf]

/-- C2: recording a like over a ledger that holds exactly one dislike entry
for the (user, fact) pair deletes that dislike, decrements the fact's
opposite counter by exactly 1, and leaves the like as the only one of
{like, dislike} present for the pair (and symmetrically with the roles of
like and dislike swapped, `t` ranging over both). -/
theorem like_dislike_mutual_exclusion (st : St) (u f : String) (t : IType) (ts : ℕ)
    (fact : Fact) (e : Interaction)
    (ht : t = IType.like ∨ t = IType.dislike)
    (hfact : st.facts f = some fact)
    (hone : queryUserFactType st.interactions u f (oppositeOf t) = [e]) :
    queryUserFactType (recordInteraction st u f t ts).1.interactions u f (oppositeOf t) = [] ∧
    queryUserFactType (recordInteraction st u f t ts).1.interactions u f t ≠ [] ∧
    ∃ g, (recordInteraction st u f t ts).1.facts f = some g ∧
      counterOf g (oppositeOf t) = counterOf fact (oppositeOf t) - 1 := by
  have hto : t ≠ oppositeOf t := by rcases ht with rfl | rfl <;> decide
  have h1 : (recordInteraction st u f t ts).1.interactions =
      (⟨u, f, t, ts⟩ : Interaction) ::
        eraseByKey (eraseByKey st.interactions e.userId e.timestamp) u ts := by
    simp only [recordInteraction, hfact, if_pos ht, removeOppositeInteraction, hone,
      List.foldl_cons, List.foldl_nil, updateFactMetricsSt, putInteraction]
  have h2 : (recordInteraction st u f t ts).1.facts f =
      some (updateFactMetrics t 1 (updateFactMetrics (oppositeOf t) (-1) fact)) := by
    simp only [recordInteraction, hfact, if_pos ht, removeOppositeInteraction, hone,
      List.foldl_cons, List.foldl_nil, updateFactMetricsSt, putInteraction]
    simp [hfact]
  refine ⟨?_, ?_, ?_⟩
  · rw [h1, queryUserFactType_cons, if_neg (by simp [hto])]
    exact query_erase_self st.interactions u f (oppositeOf t) e hone u ts
  · rw [h1, queryUserFactType_cons, if_pos ⟨rfl, rfl, rfl⟩]
    simp
  · refine ⟨_, h2, ?_⟩
    rw [counterOf_updateFactMetrics, if_neg (Ne.symm hto),
      counterOf_updateFactMetrics, if_pos rfl]
    ring

/-- Concrete instance of `like_dislike_mutual_exclusion`: one fact, a ledger
holding a single dislike, recording a like. -/
theorem like_dislike_mutual_exclusion_witness :
    queryUserFactType
      (recordInteraction
        ⟨[⟨"u1", "f1", IType.dislike, 5⟩],
         fun id => if id = "f1" then some ⟨2, 1, 0, 0, 0, 4⟩ else none⟩
        "u1" "f1" IType.like 9).1.interactions "u1" "f1" (oppositeOf IType.like) = [] ∧
    queryUserFactType
      (recordInteraction
        ⟨[⟨"u1", "f1", IType.dislike, 5⟩],
         fun id => if id = "f1" then some ⟨2, 1, 0, 0, 0, 4⟩ else none⟩
        "u1" "f1" IType.like 9).1.interactions "u1" "f1" IType.like ≠ [] ∧
    ∃ g, (recordInteraction
        ⟨[⟨"u1", "f1", IType.dislike, 5⟩],
         fun id => if id = "f1" then some ⟨2, 1, 0, 0, 0, 4⟩ else none⟩
        "u1" "f1" IType.like 9).1.facts "f1" = some g ∧
      counterOf g (oppositeOf IType.like) = counterOf ⟨2, 1, 0, 0, 0, 4⟩ (oppositeOf IType.like) - 1 :=
  like_dislike_mutual_exclusion _ "u1" "f1" IType.like 9 ⟨2, 1, 0, 0, 0, 4⟩
    ⟨"u1", "f1", IType.dislike, 5⟩ (Or.inl rfl) (by simp) (by decide)

/-- C7: removing an interaction for which no matching ledger entry exists
returns the NotFound error and leaves the whole store state — all counters
and the popularity score — unchanged. -/
theorem remove_missing_interaction_404 (st : St) (u f : String) (t : IType)
    (h : queryUserFactType st.interactions u f t = []) :
    removeInteractionOp st u f t = (st, .error ⟨"Interaction not found", 404⟩) := by
  rw [removeInteractionOp, h]

/-- Concrete instance of `remove_missing_interaction_404`: empty ledger. -/
theorem remove_missing_interaction_404_witness :
    removeInteractionOp ⟨[], fun _ => none⟩ "u1" "f1" IType.like =
      (⟨[], fun _ => none⟩, .error ⟨"Interaction not found", 404⟩) :=
  remove_missing_interaction_404 _ "u1" "f1" IType.like rfl

/-- The `reduce` of `router.get('/stats/:factId')` (`routes/interactions.js`
lines 245-248): per-type counts of a fact's ledger entries, accumulated
left to right from the empty map. -/
def typeCounts (l : List Interaction) : IType → ℕ :=
  l.foldl (fun acc i t' => if t' = i.itype then acc t' + 1 else acc t') (fun _ => 0)

/-- The raw engagement score of the stats endpoint
(`routes/interactions.js` lines 251-256):
`like*3 + share*5 + read*1 + view*0.5 - dislike*2`. -/
def engagementScoreRaw (l : List Interaction) : ℚ :=
  (typeCounts l .like : ℚ) * 3 + (typeCounts l .share : ℚ) * 5
    + (typeCounts l .read : ℚ) * 1 + (typeCounts l .view : ℚ) * (1/2)
    - (typeCounts l .dislike : ℚ) * 2

/-- `Math.max(0, engagementScore)` as returned by the stats endpoint
(`routes/interactions.js` line 264). -/
def statsEngagementScore (l : List Interaction) : ℚ := max 0 (engagementScoreRaw l)

/-- The fold of the stats `reduce` counts occurrences of each type. -/
theorem typeCounts_foldl (l : List Interaction) (acc : IType → ℕ) (t : IType) :
    l.foldl (fun acc i t' => if t' = i.itype then acc t' + 1 else acc t') acc t =
      acc t + (l.map Interaction.itype).count t := by
  induction l generalizing acc with
  | nil => simp
  | cons i l ih =>
    simp only [List.foldl_cons, ih, List.map_cons, List.count_cons, beq_iff_eq]
    by_cases h : t = i.itype
    · subst h; simp; omega
    · simp [h, Ne.symm h]

/-- `typeCounts` equals the number of entries of that type. -/
theorem typeCounts_eq_count (l : List Interaction) (t : IType) :
    typeCounts l t = (l.map Interaction.itype).count t := by
  simpa using typeCounts_foldl l (fun _ => 0) t

/-- C10: the stats endpoint's engagement score equals the weighted sum
`3·likes + 5·shares + 1·reads + 0.5·views - 2·dislikes` over the item's
ledger entries clamped below at 0, and is therefore never negative. -/
theorem stats_engagement_score_nonneg (l : List Interaction) :
    statsEngagementScore l =
      max 0 (3 * ((l.map Interaction.itype).count IType.like : ℚ)
        + 5 * ((l.map Interaction.itype).count IType.share : ℚ)
        + 1 * ((l.map Interaction.itype).count IType.read : ℚ)
        + (1/2) * ((l.map Interaction.itype).count IType.view : ℚ)
        - 2 * ((l.map Interaction.itype).count IType.dislike : ℚ)) ∧
    0 ≤ statsEngagementScore l := by
  constructor
  · have h : engagementScoreRaw l =
        3 * ((l.map Interaction.itype).count IType.like : ℚ)
          + 5 * ((l.map Interaction.itype).count IType.share : ℚ)
          + 1 * ((l.map Interaction.itype).count IType.read : ℚ)
          + (1/2) * ((l.map Interaction.itype).count IType.view : ℚ)
          - 2 * ((l.map Interaction.itype).count IType.dislike : ℚ) := by
      simp only [engagementScoreRaw, typeCounts_eq_count]
      ring
    rw [statsEngagementScore, h]
  · exact le_max_left 0 _

/-- A candidate fact as consumed by `calculateRecommendationScore`
(`routes/recommendations.js`). `createdAt` is epoch milliseconds. -/
structure RecFact where
  popularity : ℚ
  category : String
  difficulty : String
  readingTime : ℚ
  createdAt : ℚ
deriving DecidableEq

/-- A user's stored preferences (`user.preferences`), each field optional. -/
structure UserPrefs where
  difficulty : Option String
  readingTime : Option ℚ
deriving DecidableEq

/-- A user record; `preferences` itself may be absent (`user.preferences?.`). -/
structure RecUser where
  preferences : Option UserPrefs
deriving DecidableEq

/-- JavaScript `x || d` on an optional string: the default is used when the
value is absent or the empty string (falsy). -/
def jsOrStr (x : Option String) (d : String) : String :=
  match x with
  | none => d
  | some s => if s = "" then d else s

/-- JavaScript `x || d` on an optional number: the default is used when the
value is absent or 0 (falsy). -/
def jsOrNum (x : Option ℚ) (d : ℚ) : ℚ :=
  match x with
  | none => d
  | some v => if v = 0 then d else v

/-- `calculateRecommendationScore` (`routes/recommendations.js` lines
255-285): base popularity weight 0.3, category affinity weight 0.4, +20 on
difficulty match against the (defaulted) preferred difficulty, +10 when the
reading time fits the (defaulted) maximum, +5 on creation within 7 days,
clamped below at 0. -/
def calculateRecommendationScore (fact : RecFact) (user : RecUser)
    (categoryScores : String → ℚ) (now : ℚ) : ℚ :=
  let score1 : ℚ := 0 + fact.popularity * 0.3
  let score2 := score1 + categoryScores fact.category * 0.4
  let preferredDifficulty := jsOrStr (user.preferences.bind (·.difficulty)) "intermediate"
  let score3 := if fact.difficulty = preferredDifficulty then score2 + 20 else score2
  let maxReadingTime := jsOrNum (user.preferences.bind (·.readingTime)) 10
  let score4 := if fact.readingTime ≤ maxReadingTime then score3 + 10 else score3
  let daysSinceCreation := (now - fact.createdAt) / (1000 * 60 * 60 * 24)
  let score5 := if daysSinceCreation ≤ 7 then score4 + 5 else score4
  max 0 score5

/-- C6: the recommendation score assigned to every candidate before sorting
equals `0.3·popularity + 0.4·categoryAffinity[category] + 20·(difficulty
matches the user's preferred difficulty) + 10·(readingTime ≤ the user's
maximum) + 5·(created within the last 7 days)`, clamped below at 0. -/
theorem recommendation_score_formula (fact : RecFact) (user : RecUser)
    (categoryScores : String → ℚ) (now : ℚ) :
    calculateRecommendationScore fact user categoryScores now =
      max 0 (0.3 * fact.popularity + 0.4 * categoryScores fact.category
        + (if fact.difficulty = jsOrStr (user.preferences.bind (·.difficulty)) "intermediate"
           then 20 else 0)
        + (if fact.readingTime ≤ jsOrNum (user.preferences.bind (·.readingTime)) 10
           then 10 else 0)
        + (if (now - fact.createdAt) / (1000 * 60 * 60 * 24) ≤ 7 then 5 else 0)) := by
  simp only [calculateRecommendationScore]
  split_ifs <;> (congr 1; ring)

/-- The chunking loop of `batchGetItems` (`config/aws.js` lines 201-202):
`keys.slice(i, i + 100)` for `i = 0, 100, 200, ...`. -/
def batchChunks {α : Type} : List α → List (List α)
  | [] => []
  | k :: ks => (k :: ks).take 100 :: batchChunks ((k :: ks).drop 100)
termination_by l => l.length
decreasing_by
  simp only [List.length_drop, List.length_cons]
  omega

/-- The per-chunk retry loop of `batchGetItems` (`config/aws.js` lines
206-249), with the store abstracted as `proc attempt key`: at each attempt
every requested key either returns its item (`proc` true) or comes back in
`UnprocessedKeys` (`proc` false). Returns the collected items and the
`(attempt, delay)` backoff trace; a delay of
`Math.min(1000 * 2 ** attempt, 5000)` is waited whenever unprocessed keys
remain, and only the unprocessed subset is retried. -/
def runAttempts {α : Type} (proc : ℕ → α → Bool) :
    List ℕ → List α → List α × List (ℕ × ℕ)
  | _, [] => ([], [])
  | [], _ :: _ => ([], [])
  | a :: rest, k :: ks =>
    let remaining := k :: ks
    let got := remaining.filter (proc a)
    let unp := remaining.filter (fun k' => !proc a k')
    let r := runAttempts proc rest unp
    (got ++ r.1, if unp.isEmpty then r.2 else (a, min (1000 * 2 ^ a) 5000) :: r.2)

/-- `batchGetItems` (`config/aws.js` lines 194-253): split the keys into
chunks of 100, run the retry loop on each chunk with the attempt counter
reset to 0, and concatenate all retrieved items (and backoff traces). -/
def batchGetItems {α : Type} (proc : ℕ → α → Bool) (maxRetries : ℕ) (keys : List α) :
    List α × List (ℕ × ℕ) :=
  let rs := (batchChunks keys).map (fun c => runAttempts proc (List.range maxRetries) c)
  ((rs.map Prod.fst).flatten, (rs.map Prod.snd).flatten)

/-- A Boolean filter partitions a list's length. -/
theorem length_filter_partition {α : Type} (p : α → Bool) (l : List α) :
    (l.filter p).length + (l.filter (fun x => !p x)).length = l.length := by
  induction l with
  | nil => rfl
  | cons x l ih =>
    by_cases h : p x = true <;> simp [List.filter_cons, h, ← ih] <;> omega

/-- Flattening the chunks recovers the key list. -/
theorem batchChunks_flatten {α : Type} (keys : List α) : (batchChunks keys).flatten = keys := by
  induction keys using batchChunks.induct with
  | case1 => simp [batchChunks]
  | case2 k ks ih =>
    rw [batchChunks, List.flatten_cons, ih, List.take_append_drop]

/-- Every chunk produced by the splitting loop has at most 100 keys. -/
theorem batchChunks_length_le {α : Type} (keys : List α) (c : List α)
    (hc : c ∈ batchChunks keys) : c.length ≤ 100 := by
  induction keys using batchChunks.induct with
  | case1 => simp [batchChunks] at hc
  | case2 k ks ih =>
    rw [batchChunks] at hc
    rcases List.mem_cons.mp hc with rfl | hc'
    · exact List.length_take_le 100 (k :: ks)
    · exact ih hc'

/-- If every key of the chunk is processed at some attempt of the window,
the retry loop collects exactly one item per key. -/
theorem runAttempts_length {α : Type} (proc : ℕ → α → Bool) (attempts : List ℕ)
    (remaining : List α)
    (h : ∀ k ∈ remaining, ∃ a ∈ attempts, proc a k = true) :
    (runAttempts proc attempts remaining).1.length = remaining.length := by
  induction attempts generalizing remaining with
  | nil =>
    cases remaining with
    | nil => rfl
    | cons k ks =>
      obtain ⟨a, ha, -⟩ := h k (List.mem_cons_self k ks)
      exact absurd ha (List.not_mem_nil a)
  | cons a rest ih =>
    cases remaining with
    | nil => rfl
    | cons k ks =>
      have hunp : ∀ k' ∈ (k :: ks).filter (fun k' => !proc a k'),
          ∃ a' ∈ rest, proc a' k' = true := by
        intro k' hk'
        have hmem : k' ∈ k :: ks := List.mem_of_mem_filter hk'
        have hfail : proc a k' = false := by
          have := List.of_mem_filter hk'
          simpa using this
        obtain ⟨a', ha', hp⟩ := h k' hmem
        rcases List.mem_cons.mp ha' with rfl | ha''
        · rw [hp] at hfail; cases hfail
        · exact ⟨a', ha'', hp⟩
      simp only [runAttempts, List.length_append, ih _ hunp]
      exact length_filter_partition (proc a) (k :: ks)

/-- Every `(attempt, delay)` pair logged by the retry loop follows the
`min(1000·2^attempt, 5000)` backoff formula. -/
theorem runAttempts_delays {α : Type} (proc : ℕ → α → Bool) (attempts : List ℕ)
    (remaining : List α) (p : ℕ × ℕ)
    (hp : p ∈ (runAttempts proc attempts remaining).2) :
    p.2 = min (1000 * 2 ^ p.1) 5000 := by
  induction attempts generalizing remaining with
  | nil =>
    cases remaining with
    | nil => simp [runAttempts] at hp
    | cons k ks => simp [runAttempts] at hp
  | cons a rest ih =>
    cases remaining with
    | nil => simp [runAttempts] at hp
    | cons k ks =>
      simp only [runAttempts] at hp
      split_ifs at hp with hemp
      · exact ih _ hp
      · rcases List.mem_cons.mp hp with rfl | hp'
        · rfl
        · exact ih _ hp'

/-- C3: for a key list of more than 100 keys, `batchGetItems` splits it into
chunks of at most 100, retries only the unprocessed subset of each chunk
with delays `min(1000·2^attempt, 5000)`, and returns exactly one item per
input key whenever every key is processed within `maxRetries` attempts
(no permanent throttling). -/
theorem batchGetItems_complete {α : Type} (proc : ℕ → α → Bool) (keys : List α)
    (maxRetries : ℕ)
    (hN : 100 < keys.length)
    (hproc : ∀ k ∈ keys, ∃ a < maxRetries, proc a k = true) :
    (∀ c ∈ batchChunks keys, c.length ≤ 100) ∧
    (batchGetItems proc maxRetries keys).1.length = keys.length ∧
    (∀ p ∈ (batchGetItems proc maxRetries keys).2, p.2 = min (1000 * 2 ^ p.1) 5000) := by
  have hsub : ∀ c ∈ batchChunks keys, ∀ k ∈ c, k ∈ keys := by
    intro c hc k hk
    rw [← batchChunks_flatten keys]
    exact List.mem_flatten.mpr ⟨c, hc, hk⟩
  refine ⟨fun c hc => batchChunks_length_le keys c hc, ?_, ?_⟩
  · have hlen : ∀ c ∈ batchChunks keys,
        (runAttempts proc (List.range maxRetries) c).1.length = c.length := by
      intro c hc
      apply runAttempts_length
      intro k hk
      obtain ⟨a, ha, hp⟩ := hproc k (hsub c hc k hk)
      exact ⟨a, List.mem_range.mpr ha, hp⟩
    simp only [batchGetItems, List.map_map, List.length_flatten, List.map_map]
    calc (List.map (List.length ∘ Prod.fst ∘ fun c =>
            runAttempts proc (List.range maxRetries) c) (batchChunks keys)).sum
        = (List.map List.length (batchChunks keys)).sum := by
          refine congrArg List.sum (List.map_congr_left ?_)
          intro c hc
          exact hlen c hc
      _ = (batchChunks keys).flatten.length := (List.length_flatten _).symm
      _ = keys.length := by rw [batchChunks_flatten]
  · intro p hp
    simp only [batchGetItems, List.map_map] at hp
    obtain ⟨l, hl, hpl⟩ := List.mem_flatten.mp hp
    obtain ⟨c, hc, rfl⟩ := List.mem_map.mp hl
    exact runAttempts_delays proc (List.range maxRetries) c p hpl

/-- Concrete instance of `batchGetItems_complete`: 101 keys, a store that
processes every key at the first attempt, 3 retries. -/
theorem batchGetItems_complete_witness :
    (batchGetItems (fun _ (_ : ℕ) => true) 3 (List.range 101)).1.length = 101 := by
  have h := (batchGetItems_complete (fun _ (_ : ℕ) => true) (List.range 101) 3
    (by simp) (fun k _ => ⟨0, by norm_num, rfl⟩)).2.1
  simpa using h

/-- One page of a store query: returned items plus the optional
continuation cursor (`LastEvaluatedKey`, modelled as an opaque `ℕ`). -/
structure Page (α : Type) where
  items : List α
  next : Option ℕ

/-- The `do … while (lastEvaluatedKey)` loop of `paginatedQuery`
(`config/aws.js` lines 459-493), with explicit fuel bounding the number of
store requests (the JavaScript loop is unbounded; termination is the
theorem). Each iteration requests `Limit = min(pageSize,
maxResults - totalScanned)`, appends the returned items, breaks when
`totalScanned >= maxResults`, and otherwise follows the cursor. -/
def pqRun {α : Type} (store : Option ℕ → ℕ → Page α) (pageSize maxResults : ℕ) :
    ℕ → Option ℕ → List α → ℕ → Option (List α)
  | 0, _, _, _ => none
  | fuel + 1, cursor, acc, total =>
    let limit := min pageSize (maxResults - total)
    let page := store cursor limit
    let acc' := acc ++ page.items
    let total' := total + page.items.length
    if maxResults ≤ total' then some acc'
    else
      match page.next with
      | none => some acc'
      | some c => pqRun store pageSize maxResults fuel (some c) acc' total'

/-- `paginatedQuery` started from no cursor with empty accumulators. -/
def paginatedQuery {α : Type} (store : Option ℕ → ℕ → Page α)
    (pageSize maxResults fuel : ℕ) : Option (List α) :=
  pqRun store pageSize maxResults fuel none [] 0

/-- Loop invariant: when the store honours the requested limit, any
completed run returns at most `maxResults` items. -/
theorem pqRun_length_le {α : Type} (store : Option ℕ → ℕ → Page α) (ps mr : ℕ)
    (hresp : ∀ c l, (store c l).items.length ≤ l) :
    ∀ fuel cursor acc total, acc.length = total → total ≤ mr →
      ∀ res, pqRun store ps mr fuel cursor acc total = some res → res.length ≤ mr := by
  intro fuel
  induction fuel with
  | zero => intro cursor acc total _ _ res h; cases h
  | succ fuel ih =>
    intro cursor acc total hacc htot res h
    simp only [pqRun] at h
    have hlim := hresp cursor (min ps (mr - total))
    split_ifs at h with hfull
    · cases h
      simp only [List.length_append, hacc]
      omega
    · revert h
      match hnext : (store cursor (min ps (mr - total))).next with
      | none =>
        intro h
        cases h
        simp only [List.length_append, hacc]
        omega
      | some c =>
        intro h
        exact ih (some c) _ _ (by simp [hacc]) (by omega) res h

/-- Loop progress: when every page is the maximum (requested) size and the
page size is positive, the loop completes within `maxResults + 1` store
requests. -/
theorem pqRun_isSome {α : Type} (store : Option ℕ → ℕ → Page α) (ps mr : ℕ)
    (hfull : ∀ c l, (store c l).items.length = l) (hps : 1 ≤ ps) :
    ∀ fuel cursor acc total, mr - total < fuel →
      (pqRun store ps mr fuel cursor acc total).isSome = true := by
  intro fuel
  induction fuel with
  | zero => intro cursor acc total h; omega
  | succ fuel ih =>
    intro cursor acc total h
    simp only [pqRun]
    split_ifs with hdone
    · rfl
    · have hlen := hfull cursor (min ps (mr - total))
      match hnext : (store cursor (min ps (mr - total))).next with
      | none => rfl
      | some c =>
        apply ih
        omega

/-- C4: `paginatedQuery` never returns more than `maxResults` items (for
any store honouring the requested limit and any fuel), and when every page
the store returns has the maximum requested size — and the page size is
positive — the loop terminates within `maxResults + 1` store requests. -/
theorem paginatedQuery_bounded {α : Type} (store : Option ℕ → ℕ → Page α)
    (ps mr : ℕ)
    (hresp : ∀ c l, (store c l).items.length ≤ l) :
    (∀ fuel res, paginatedQuery store ps mr fuel = some res → res.length ≤ mr) ∧
    ((∀ c l, (store c l).items.length = l) → 1 ≤ ps →
      (paginatedQuery store ps mr (mr + 1)).isSome = true) := by
  constructor
  · intro fuel res h
    exact pqRun_length_le store ps mr hresp fuel none [] 0 rfl (Nat.zero_le mr) res h
  · intro hfull hps
    exact pqRun_isSome store ps mr hfull hps (mr + 1) none [] 0 (by omega)

/-- Concrete instance of `paginatedQuery_bounded`: a store that always
returns a full page of zeros and a cursor; `pageSize = 2`,
`maxResults = 5`. -/
theorem paginatedQuery_bounded_witness :
    (paginatedQuery (fun _ l => Page.mk (List.replicate l (0 : ℕ)) (some 0)) 2 5 6).isSome
      = true :=
  (paginatedQuery_bounded (fun _ l => Page.mk (List.replicate l (0 : ℕ)) (some 0)) 2 5
      (fun _ l => by simp)).2 (fun _ l => by simp) (by norm_num)

/-- Store responses to one `transactWrite` call, from the error handling of
`performTransactionWrite` (`config/aws.js` lines 389-418):
`condFail` is `TransactionCanceledException` (conditional check failure). -/
inductive TxOutcome where
  | success
  | condFail
  | throttled
  | generic
deriving DecidableEq

/-- Error kinds surfaced by `performTransactionWrite`. -/
inductive TxErr where
  | canceled
  | throttled
  | generic
deriving DecidableEq

/-- The error kind corresponding to a failing store outcome. -/
def errOf : TxOutcome → TxErr
  | .success => .generic
  | .condFail => .canceled
  | .throttled => .throttled
  | .generic => .generic

/-- An item of a `TransactItems` request (opaque payload). -/
structure TxItem where
  id : String
deriving DecidableEq

/-- The `while (attempt < maxRetries)` loop of `performTransactionWrite`
(`config/aws.js` lines 389-418), run over the list of attempt indices
`[0, …, maxRetries-1]`. Returns the result, the number of store calls made,
and the `(attempt, delay)` backoff trace; on a retryable error the counter
is incremented first and the delay `Math.min(1000 * 2 ** attempt, 5000)` is
computed from the incremented counter. A `TransactionCanceledException` is
rethrown immediately; other errors rethrow once the incremented counter
reaches `maxRetries` (no attempt indices remain). -/
def txRun (outcome : ℕ → TxOutcome) : List ℕ → Except TxErr Unit × ℕ × List (ℕ × ℕ)
  | [] => (.ok (), 0, [])
  | a :: rest =>
    if outcome a = .success then (.ok (), 1, [])
    else if outcome a = .condFail then (.error .canceled, 1, [])
    else if rest.isEmpty then (.error (errOf (outcome a)), 1, [])
    else
      ((txRun outcome rest).1, (txRun outcome rest).2.1 + 1,
        (a + 1, min (1000 * 2 ^ (a + 1)) 5000) :: (txRun outcome rest).2.2)

/-- `performTransactionWrite(transactItems, maxRetries)`: the retry loop
started at attempt 0. The store's behaviour for this fixed `transactItems`
request is abstracted as the per-attempt outcome oracle. -/
def performTransactionWrite (outcome : ℕ → TxOutcome) (transactItems : List TxItem)
    (maxRetries : ℕ) : Except TxErr Unit × ℕ × List (ℕ × ℕ) :=
  txRun outcome (List.range maxRetries)

/-- When every attempt of the window fails retryably, the loop makes
exactly `n` calls, surfaces the last error, and logs `n - 1` delays all
following the backoff formula. -/
theorem txRun_all_fail (outcome : ℕ → TxOutcome) :
    ∀ n s, 1 ≤ n →
      (∀ a, s ≤ a → a < s + n →
        outcome a = .throttled ∨ outcome a = .generic) →
      (txRun outcome (List.range' s n)).1 = .error (errOf (outcome (s + n - 1))) ∧
      (txRun outcome (List.range' s n)).2.1 = n ∧
      (txRun outcome (List.range' s n)).2.2.length = n - 1 ∧
      ∀ p ∈ (txRun outcome (List.range' s n)).2.2, p.2 = min (1000 * 2 ^ p.1) 5000 := by
  intro n
  induction n with
  | zero => intro s h; omega
  | succ n ih =>
    intro s _ hfail
    have h0 : outcome s = .throttled ∨ outcome s = .generic :=
      hfail s le_rfl (by omega)
    have hns : ¬ outcome s = .success := by rcases h0 with h0 | h0 <;> simp [h0]
    have hnc : ¬ outcome s = .condFail := by rcases h0 with h0 | h0 <;> simp [h0]
    match n with
    | 0 =>
      rw [show List.range' s 1 = [s] from rfl, txRun, if_neg hns, if_neg hnc]
      simp only [List.isEmpty_nil, if_true]
      simp
    | n' + 1 =>
      have ihr := ih (s + 1) (by omega)
        (fun a ha1 ha2 => hfail a (by omega) (by omega))
      rw [List.range'_succ, txRun, if_neg hns, if_neg hnc,
        if_neg (by simp [List.range'_succ])]
      refine ⟨?_, ?_, ?_, ?_⟩
      · show (txRun outcome (List.range' (s + 1) (n' + 1))).1 = _
        rw [ihr.1]
        have harith : s + 1 + (n' + 1) - 1 = s + (n' + 1 + 1) - 1 := by omega
        rw [harith]
      · show (txRun outcome (List.range' (s + 1) (n' + 1))).2.1 + 1 = n' + 1 + 1
        rw [ihr.2.1]
      · show ((s + 1, min (1000 * 2 ^ (s + 1)) 5000)
            :: (txRun outcome (List.range' (s + 1) (n' + 1))).2.2).length = n' + 1 + 1 - 1
        simp only [List.length_cons, ihr.2.2.1]
        omega
      · intro p hp
        rcases List.mem_cons.mp hp with rfl | hp'
        · rfl
        · exact ihr.2.2.2 p hp'

/-- C5: a conditional-check failure (`TransactionCanceledException`) on the
first call is propagated immediately — one store call, no retry, no delay —
while all-retryable failures (throttling or generic faults) are retried
with backoff delays `min(1000·2^attempt, 5000)` for exactly `maxRetries`
attempts before the last error is propagated. -/
theorem transaction_write_retry_policy (outcome : ℕ → TxOutcome)
    (transactItems : List TxItem) (maxRetries : ℕ)
    (hitems : transactItems.length ≤ 25) (hmr : 1 ≤ maxRetries) :
    (outcome 0 = .condFail →
      performTransactionWrite outcome transactItems maxRetries =
        (.error .canceled, 1, [])) ∧
    ((∀ a < maxRetries, outcome a = .throttled ∨ outcome a = .generic) →
      (performTransactionWrite outcome transactItems maxRetries).1 =
          .error (errOf (outcome (maxRetries - 1))) ∧
      (performTransactionWrite outcome transactItems maxRetries).2.1 = maxRetries ∧
      (performTransactionWrite outcome transactItems maxRetries).2.2.length
          = maxRetries - 1 ∧
      ∀ p ∈ (performTransactionWrite outcome transactItems maxRetries).2.2,
        p.2 = min (1000 * 2 ^ p.1) 5000) := by
  constructor
  · intro h
    obtain ⟨rem, rfl⟩ : ∃ rem, maxRetries = rem + 1 := ⟨maxRetries - 1, by omega⟩
    simp only [performTransactionWrite, List.range_eq_range', List.range'_succ]
    rw [txRun, if_neg (by simp [h]), if_pos h]
  · intro hfail
    have h := txRun_all_fail outcome maxRetries 0 hmr
      (fun a _ ha2 => hfail a (by omega))
    simpa [performTransactionWrite, List.range_eq_range'] using h

/-- Concrete instances of `transaction_write_retry_policy`: an immediately
cancelled transaction, and an always-throttled one with `maxRetries = 3`. -/
theorem transaction_write_retry_policy_witness :
    performTransactionWrite (fun _ => TxOutcome.condFail) [] 3 =
      (.error .canceled, 1, []) ∧
    (performTransactionWrite (fun _ => TxOutcome.throttled) [] 3).2.1 = 3 :=
  ⟨(transaction_write_retry_policy (fun _ => TxOutcome.condFail) [] 3
      (by norm_num) (by norm_num)).1 rfl,
   ((transaction_write_retry_policy (fun _ => TxOutcome.throttled) [] 3
      (by norm_num) (by norm_num)).2 (fun a _ => Or.inl rfl)).2.1⟩

/-- A fact as consumed by `calculateTrendingScore` (`routes/facts.js` lines
368-383): engagement counters and creation time (epoch milliseconds), over
`ℝ` because the score uses `Math.exp`. -/
structure TrendFact where
  popularity : ℝ
  likes : ℝ
  shares : ℝ
  views : ℝ
  createdAt : ℝ

/-- `calculateTrendingScore` (`routes/facts.js` lines 368-383):
`(0.4·popularity + 0.3·likes + 0.2·shares + 0.1·views) · exp(-ageInHours/24)`
with `ageInHours = (now - createdAt) / (1000·60·60)`. -/
noncomputable def calculateTrendingScore (fact : TrendFact) (now : ℝ) : ℝ :=
  (fact.popularity * 0.4 + fact.likes * 0.3 + fact.shares * 0.2 + fact.views * 0.1) *
    Real.exp (-((now - fact.createdAt) / (1000 * 60 * 60)) / 24)

/-- C8 counterexample: for an item with zero popularity, likes, shares and
views, the trending score is 0 at every age, so the score at age 1 hour is
NOT strictly greater than at age 48 hours — the claimed strict decrease
fails for a pair of otherwise-identical zero-engagement items. -/
theorem trending_strict_decrease_counterexample :
    ¬ (calculateTrendingScore ⟨0, 0, 0, 0, 0⟩ (48 * 3600000) <
        calculateTrendingScore ⟨0, 0, 0, 0, 47 * 3600000⟩ (48 * 3600000)) := by
  simp [calculateTrendingScore]

/-- C8 amended: for two items identical in popularity, likes, shares and
views, the trending score is antitone in age whenever the engagement base
`0.4·popularity + 0.3·likes + 0.2·shares + 0.1·views` is nonnegative, and
strictly decreasing in age (in particular, strictly greater at age 1 hour
than at age 48 hours) whenever that base is positive. -/
theorem trending_score_age_decay (f g : TrendFact) (now : ℝ)
    (hpop : f.popularity = g.popularity) (hlikes : f.likes = g.likes)
    (hshares : f.shares = g.shares) (hviews : f.views = g.views)
    (hage : f.createdAt < g.createdAt) :
    (0 ≤ g.popularity * 0.4 + g.likes * 0.3 + g.shares * 0.2 + g.views * 0.1 →
      calculateTrendingScore f now ≤ calculateTrendingScore g now) ∧
    (0 < g.popularity * 0.4 + g.likes * 0.3 + g.shares * 0.2 + g.views * 0.1 →
      calculateTrendingScore f now < calculateTrendingScore g now) := by
  rw [calculateTrendingScore, calculateTrendingScore, hpop, hlikes, hshares, hviews]
  have hexp : Real.exp (-((now - f.createdAt) / (1000 * 60 * 60)) / 24) <
      Real.exp (-((now - g.createdAt) / (1000 * 60 * 60)) / 24) := by
    apply Real.exp_lt_exp.mpr
    have h36 : (0 : ℝ) < 1000 * 60 * 60 := by norm_num
    have h1 : (now - g.createdAt) / (1000 * 60 * 60) <
        (now - f.createdAt) / (1000 * 60 * 60) :=
      div_lt_div_of_pos_right (by linarith) h36
    linarith
  constructor
  · intro hb
    exact mul_le_mul_of_nonneg_left hexp.le hb
  · intro hb
    exact (mul_lt_mul_left hb).mpr hexp

/-- Concrete instance of `trending_score_age_decay`: positive popularity,
older creation time, strictly smaller score. -/
theorem trending_score_age_decay_witness :
    calculateTrendingScore ⟨10, 0, 0, 0, 0⟩ 2 < calculateTrendingScore ⟨10, 0, 0, 0, 1⟩ 2 :=
  (trending_score_age_decay ⟨10, 0, 0, 0, 0⟩ ⟨10, 0, 0, 0, 1⟩ 2 rfl rfl rfl rfl
    (by norm_num)).2 (by norm_num)

/-- Milliseconds per day, `1000 * 60 * 60 * 24`
(`routes/interactions.js` line 469). -/
def msPerDay : ℕ := 1000 * 60 * 60 * 24

/-- The calendar-day start of a timestamp (`toDateString` grouping of
`analyzeEngagementPatterns`, modelled as UTC): midnight of the timestamp's
day in epoch milliseconds. -/
def dayStart (t : ℕ) : ℕ := msPerDay * (t / msPerDay)

/-- One insertion step of sorting day keys most-recent first
(`sortedDays` at `routes/interactions.js` line 463). -/
def insertDesc (x : ℕ) : List ℕ → List ℕ
  | [] => [x]
  | y :: ys => if y ≤ x then x :: y :: ys else y :: insertDesc x ys

/-- Sort descending (most recent day first). -/
def sortDesc (l : List ℕ) : List ℕ := l.foldr insertDesc []

/-- The streak loop of `analyzeEngagementPatterns`
(`routes/interactions.js` lines 464-477): walk the sorted day keys with
`previousDate` initialised to the CURRENT time, count a day while
`floor((previousDate - dayDate) / msPerDay) <= 1`, stop at the first gap. -/
def streakGo (prev : ℕ) : List ℕ → ℕ
  | [] => 0
  | d :: ds => if (prev - d) / msPerDay ≤ 1 then 1 + streakGo d ds else 0

/-- `streakDays` of `analyzeEngagementPatterns`: distinct day keys of the
interaction timestamps, sorted most recent first, walked by `streakGo`
starting from the current time `nowMs`. -/
def streakDays (nowMs : ℕ) (timestamps : List ℕ) : ℕ :=
  streakGo nowMs (sortDesc ((timestamps.map dayStart).dedup))

/-- C9 counterexample: a user whose interactions all fall on one single day
ten days in the past gets a computed streak of 0, not 1 — the walk starts
from the current date, so the most recent interaction day is dropped when
it is more than 1 day old and the streak does not count it. -/
theorem streak_single_day_counterexample :
    streakDays (10 * msPerDay) [5] = 0 := by decide

/-- `dedup` of a nonempty constant list is the singleton. -/
theorem dedup_const {α : Type} [DecidableEq α] (l : List α) (c : α) (hne : l ≠ [])
    (h : ∀ x ∈ l, x = c) : l.dedup = [c] := by
  induction l with
  | nil => cases hne rfl
  | cons a l ih =>
    have ha : a = c := h a (List.mem_cons_self a l)
    subst ha
    cases l with
    | nil => simp
    | cons b l' =>
      have hl : (b :: l').dedup = [a] :=
        ih (by simp) (fun x hx => h x (List.mem_cons_of_mem a hx))
      have hmem : a ∈ b :: l' := by
        have hb : b = a := h b (by simp)
        rw [← hb]
        exact List.mem_cons_self b l'
      rw [List.dedup_cons_of_mem hmem, hl]

/-- C9 amended: the streak walk starts from the current time, not from the
most recent interaction day; for a user whose interactions all fall on one
single calendar day, the computed streak is 1 exactly when that day's start
lies within one day-floor of now (`(now - dayStart) / msPerDay ≤ 1`), and 0
otherwise. -/
theorem streak_single_day (nowMs d : ℕ) (ts : List ℕ) (hne : ts ≠ [])
    (hday : ∀ t ∈ ts, t / msPerDay = d) :
    streakDays nowMs ts = if (nowMs - msPerDay * d) / msPerDay ≤ 1 then 1 else 0 := by
  have hmap : ∀ x ∈ ts.map dayStart, x = msPerDay * d := by
    intro x hx
    obtain ⟨t, ht, rfl⟩ := List.mem_map.mp hx
    rw [dayStart, hday t ht]
  have hded : (ts.map dayStart).dedup = [msPerDay * d] :=
    dedup_const (ts.map dayStart) (msPerDay * d) (by simpa using hne) hmap
  rw [streakDays, hded]
  show streakGo nowMs (sortDesc [msPerDay * d]) = _
  rw [show sortDesc [msPerDay * d] = [msPerDay * d] from rfl]
  simp [streakGo]

/-- Concrete instance of `streak_single_day`: one interaction earlier today
(timestamp 100), observed exactly one day later, streak 1. -/
theorem streak_single_day_witness : streakDays msPerDay [100] = 1 := by
  have h := streak_single_day msPerDay 0 [100] (by simp)
    (by intro t ht; simp at ht; subst ht; rfl)
  rw [h]
  decide

end Cognition
